import Mathlib

/-!
Verification of the Shellforge shell (`demoshellforge.py`) against its
natural-language specification.

The development shallowly embeds the Python source: strings are lists of
characters, `str.strip`/`str.split` are modelled by executable Lean
functions with the same behaviour, the job dictionary is an
insertion-ordered association list (Python dicts preserve insertion
order), and interactions with the operating system (spawning processes,
changing directory, polling, signalling) are parameters collected in an
`OsWorld` record, so each theorem quantifies over what the OS may do.
Python exceptions are modelled by the inductive `PyExn` and explicit
`Except` propagation mirroring the source's try/except structure.
-/

/-- Characters treated as whitespace by Python's `str.strip()` /
`str.split()` (ASCII fragment; the source only manipulates ASCII). -/
def pyWS (c : Char) : Bool :=
  c = ' ' || c = '\t' || c = '\n' || c = '\r' || c = '\x0b' || c = '\x0c'

/-- Python `s.strip()`: drop leading and trailing whitespace. -/
def pyStrip (s : List Char) : List Char :=
  ((s.dropWhile pyWS).reverse.dropWhile pyWS).reverse

/-- Split a character list at every character satisfying `p`, keeping empty
segments — the behaviour of Python `str.split(sep)` for a one-character
separator when `p` tests for that separator. -/
def splitPred (p : Char → Bool) : List Char → List (List Char)
  | [] => [[]]
  | c :: rest =>
    let r := splitPred p rest
    if p c then [] :: r
    else (c :: r.headD []) :: r.tail

/-- Python `s.split()` with no separator: split on runs of whitespace and
drop empty tokens. -/
def pySplit (s : List Char) : List (List Char) :=
  (splitPred pyWS s).filter (fun t => t ≠ [])

/-- Convenience: the character list of a string literal. -/
def str (s : String) : List Char := s.data

/-- Python `" ".join(words)`-style joining with a separator. -/
def joinWith (sep : List Char) : List (List Char) → List Char
  | [] => []
  | [w] => w
  | w :: ws => w ++ sep ++ joinWith sep ws

/-- Result of `UnixShell.parse_command` (source lines 59-78): the stage
argument lists, the background flag, and the optional redirect target. -/
structure ParsedCommand where
  commands : List (List (List Char))
  background : Bool
  redirect_file : Option (List Char)
deriving DecidableEq, Repr

/-- The background-marker step of `parse_command` (lines 63-66):
`background = command_line.endswith("&")`, and if so the marker is
stripped together with trailing whitespace. -/
def stripBackground (cl : List Char) : List Char × Bool :=
  if cl.getLast? = some '&' then (pyStrip cl.dropLast, true) else (cl, false)

/-- The redirection step of `parse_command` (lines 68-73):
`parts = command_line.split(">")`, command part `parts[0].strip()`,
redirect target `parts[1].strip()`.  When `'>'` occurs in the line,
`split` yields at least two parts, so the `getD` defaults are inert. -/
def splitRedirect (cl : List Char) : List Char × Option (List Char) :=
  if cl.contains '>' then
    let parts := splitPred (· = '>') cl
    (pyStrip (parts.headD []), some (pyStrip ((parts.drop 1).headD [])))
  else (cl, none)

/-- `UnixShell.parse_command` (lines 59-78): strip, detect trailing `&`,
split off the redirect target, split the rest on `|`, and tokenise each
stage with `strip().split()`. -/
def parse_command (command_line : List Char) : ParsedCommand :=
  let cl := pyStrip command_line
  let bg := stripBackground cl
  let rd := splitRedirect bg.1
  { commands := (splitPred (· = '|') rd.1).map (fun c => pySplit (pyStrip c))
    background := bg.2
    redirect_file := rd.2 }

/-- `UnixShell.expand_aliases` (lines 80-85): if the first token is an
alias key, replace it by the alias value's whitespace-split tokens and
append the remaining original tokens; otherwise return the command
unchanged.  The alias dictionary is modelled as an association list in
insertion order. -/
def expand_aliases (aliases : List (List Char × List Char)) :
    List (List Char) → List (List Char)
  | [] => []
  | c0 :: rest =>
    match aliases.lookup c0 with
    | some v => pySplit v ++ rest
    | none => c0 :: rest

/-- The alias table pre-seeded in `UnixShell.__init__` (lines 36-40). -/
def default_aliases : List (List Char × List Char) :=
  [(str "ll", str "ls -la"), (str "la", str "ls -a"), (str "l", str "ls -CF")]


/-! ### Data model: exceptions, jobs, shell state -/

/-- Python exception classes the source raises or catches.  `systemExit`
and `keyboardInterrupt` derive from `BaseException` in Python and are not
caught by `except Exception`. -/
inductive PyExn where
  | fileNotFound
  | notADirectory
  | permissionError
  | indexError
  | valueError
  | processLookup
  | keyboardInterrupt
  | systemExit (code : Int)
  | eofError
  | otherError
deriving DecidableEq, Repr

/-- Outcome of `os.kill(pid, SIGTERM)` (source line 302): success, or one
of the exception classes caught on line 304. -/
inductive KillSig where
  | ok
  | noSuchProcess
  | permissionDenied
deriving DecidableEq, Repr

/-- `Job.__init__` (source lines 11-18): a job stores its id, the command
label and ONE process handle (a single `subprocess.Popen`).  The source
also sets `status = "running"` (never read: `get_status` always polls) and
`start_time` (never read); both are omitted.  Process handles are modelled
as numeric ids. -/
structure Job where
  job_id : Int
  command : List Char
  process : Nat
deriving DecidableEq, Repr

/-- The complete list of process handles a `Job` record holds: exactly the
one handle stored in its `process` field. -/
def jobHandles (j : Job) : List Nat := [j.process]

/-- The mutable state of `UnixShell` (lines 32-42) relevant to the claims:
the job dictionary (insertion-ordered association list), the id counter,
the alias dictionary, the environment dictionary and the current
directory.  History and the prompt are external collaborators. -/
structure ShellState where
  jobs : List (Int × Job)
  job_counter : Int
  aliases : List (List Char × List Char)
  environment : List (List Char × List Char)
  current_dir : List Char
deriving DecidableEq, Repr

/-- The state right after `UnixShell.__init__`. -/
def initShellState : ShellState :=
  { jobs := [], job_counter := 1, aliases := default_aliases,
    environment := [], current_dir := str "/" }

/-- Job registration as performed at source lines 166-171 and 220-225:
store a new `Job` under the current counter value and increment the
counter.  Returns the new state and the assigned id. -/
def registerJob (s : ShellState) (command : List Char) (process : Nat) :
    ShellState × Int :=
  ({ s with
      jobs := s.jobs ++ [(s.job_counter, ⟨s.job_counter, command, process⟩)],
      job_counter := s.job_counter + 1 },
   s.job_counter)

/-- `del self.jobs[jid]` (lines 254, 279, 299, 351): remove the entry with
the given id; the counter is untouched. -/
def removeJob (s : ShellState) (jid : Int) : ShellState :=
  { s with jobs := s.jobs.filter (fun e => e.1 ≠ jid) }

/-- One abstract job-table operation: every code path that touches the
table either registers a job or deletes an entry. -/
inductive JobOp where
  | register (command : List Char) (process : Nat)
  | remove (jid : Int)

/-- Apply one job-table operation. -/
def applyOp (s : ShellState) : JobOp → ShellState
  | .register c p => (registerJob s c p).1
  | .remove j => removeJob s j

/-- Run a sequence of job-table operations. -/
def runOps (s : ShellState) : List JobOp → ShellState
  | [] => s
  | op :: ops => runOps (applyOp s op) ops

/-- The job ids handed out by the registrations of a trace, in order. -/
def assignedIds (s : ShellState) : List JobOp → List Int
  | [] => []
  | .register c p :: ops =>
      s.job_counter :: assignedIds (applyOp s (.register c p)) ops
  | .remove j :: ops => assignedIds (applyOp s (.remove j)) ops

/-- The number of registrations in a trace. -/
def countRegisters : List JobOp → Nat
  | [] => 0
  | .register _ _ :: ops => countRegisters ops + 1
  | .remove _ :: ops => countRegisters ops

/-- `n` consecutive integers beginning at `c`. -/
def idsFrom (c : Int) : Nat → List Int
  | 0 => []
  | n + 1 => c :: idsFrom (c + 1) n

/-- The ids currently present in the job table, in table order. -/
def jobsKeys (s : ShellState) : List Int := s.jobs.map (fun e => e.1)

/-- Table well-formedness: ids appear in strictly increasing order and are
all below the counter. -/
def tableInv (s : ShellState) : Prop :=
  List.Pairwise (· < ·) (jobsKeys s) ∧ ∀ k ∈ jobsKeys s, k < s.job_counter

/-! ### Job status and the job-facing built-ins -/

/-- A job's displayed status (`Job.get_status`, lines 23-27). -/
inductive JobStatus where
  | running
  | done (code : Int)
deriving DecidableEq, Repr

/-- `Job.is_running` (lines 20-21): `self.process.poll() is None`.  `poll`
is the OS's non-blocking status oracle: `none` while the process runs,
`some code` once it exited. -/
def job_is_running (poll : Nat → Option Int) (j : Job) : Bool :=
  (poll j.process).isNone

/-- `Job.get_status` (lines 23-27). -/
def job_get_status (poll : Nat → Option Int) (j : Job) : JobStatus :=
  match poll j.process with
  | none => .running
  | some code => .done code

/-- One line printed by the `jobs` built-in: id, status, label
(`print(f"[{job_id}]  {status}    {job.command}")`, line 249). -/
structure JobsLine where
  jid : Int
  status : JobStatus
  command : List Char
deriving DecidableEq, Repr

/-- `UnixShell.show_jobs` (lines 242-254): print every entry in table
order, then delete every entry whose process has finished.  Status is
polled once per job per pass (the poll oracle is fixed for the pass). -/
def show_jobs (poll : Nat → Option Int) (s : ShellState) :
    List JobsLine × ShellState :=
  if s.jobs = [] then ([], s)
  else
    let out := s.jobs.map (fun e => ⟨e.1, job_get_status poll e.2, e.2.command⟩)
    let completed :=
      (s.jobs.filter (fun e => !job_is_running poll e.2)).map (fun e => e.1)
    (out, completed.foldl removeJob s)

/-- Value of a digit string. -/
def digitsVal (ds : List Char) : Int :=
  ds.foldl (fun a c => a * 10 + ((c.toNat - '0'.toNat : Nat) : Int)) 0

/-- Python `int(text)` after stripping: an optional sign followed by a
non-empty run of digits (digit-grouping underscores are not modelled; the
source never relies on them). -/
def pyIntCore : List Char → Option Int
  | '+' :: ds =>
      if ds ≠ [] ∧ ds.all Char.isDigit then some (digitsVal ds) else none
  | '-' :: ds =>
      if ds ≠ [] ∧ ds.all Char.isDigit then some (-(digitsVal ds)) else none
  | ds =>
      if ds ≠ [] ∧ ds.all Char.isDigit then some (digitsVal ds) else none

/-- Python `int(text)`: `none` means `int` raised `ValueError`. -/
def pyInt (s : List Char) : Option Int := pyIntCore (pyStrip s)

/-- Messages printed by `UnixShell.kill_job` (lines 287-305). -/
inductive KillMsg where
  | usage
  | terminatedJob (jid : Int) (command : List Char)
  | terminatedPid (pid : Int)
  | killError
deriving DecidableEq, Repr

/-- `UnixShell.kill_job` (lines 287-305): with no argument print usage;
parse the argument as an int (`ValueError` is caught, printing
`kill: ...`); a matching job id is terminated, reported and removed;
otherwise the number is signalled as a raw pid via `os.kill`, whose
`ProcessLookupError`/`PermissionError` are caught and reported. -/
def kill_job (oskill : Int → KillSig) (args : List (List Char))
    (s : ShellState) : List KillMsg × ShellState :=
  match args with
  | [] => ([.usage], s)
  | a0 :: _ =>
    match pyInt a0 with
    | none => ([.killError], s)
    | some jid =>
      match s.jobs.lookup jid with
      | some job => ([.terminatedJob jid job.command], removeJob s jid)
      | none =>
        match oskill jid with
        | .ok => ([.terminatedPid jid], s)
        | _ => ([.killError], s)

/-- Messages printed by `UnixShell.foreground_job` (lines 256-281). -/
inductive FgMsg where
  | noCurrentJob
  | invalidJobNumber
  | jobNotFound (jid : Int)
  | ctrlC
deriving DecidableEq, Repr

/-- Target-id resolution of `fg` (lines 258-269): no argument selects the
maximum held id, an argument must parse as an int. -/
def resolve_fg_target (args : List (List Char)) (s : ShellState) :
    Except FgMsg Int :=
  match args with
  | [] =>
    match (s.jobs.map (fun e => e.1)).max? with
    | some m => .ok m
    | none => .error .noCurrentJob
  | a :: _ =>
    match pyInt a with
    | some j => .ok j
    | none => .error .invalidJobNumber

/-- `UnixShell.foreground_job` (lines 256-281).  The third component is
the id of the job blockingly waited on (`none` = no wait was performed).
`interrupted` says whether a `KeyboardInterrupt` arrives during that wait
(caught on line 280, leaving the entry in the table). -/
def foreground_job (poll : Nat → Option Int) (interrupted : Bool)
    (args : List (List Char)) (s : ShellState) :
    List FgMsg × ShellState × Option Int :=
  match resolve_fg_target args s with
  | .error m => ([m], s, none)
  | .ok jid =>
    match s.jobs.lookup jid with
    | none => ([.jobNotFound jid], s, none)
    | some job =>
      if job_is_running poll job then
        if interrupted then ([.ctrlC], s, some jid)
        else ([], removeJob s jid, some jid)
      else ([], s, none)

/-! ### The remaining built-ins and the OS interface -/

/-- Python dict assignment `d[k] = v` on an insertion-ordered association
list: overwrite in place or append. -/
def dictSet (d : List (List Char × List Char)) (k v : List Char) :
    List (List Char × List Char) :=
  if d.any (fun e => e.1 = k) then d.map (fun e => if e.1 = k then (k, v) else e)
  else d ++ [(k, v)]

/-- Python `s.strip(chars)`: drop the given characters from both ends. -/
def pyStripChars (cs : List Char) (s : List Char) : List Char :=
  ((s.dropWhile (fun c => cs.contains c)).reverse.dropWhile
    (fun c => cs.contains c)).reverse

/-- `UnixShell.handle_alias` (lines 312-324): `name=value` defines an
alias (value stripped of quotes via `strip("'\"")`, split at the first
`=`); other forms only print. -/
def handle_alias (args : List (List Char)) (s : ShellState) : ShellState :=
  match args with
  | [] => s
  | a :: _ =>
    if a.contains '=' then
      let name := a.takeWhile (fun c => !(c = '='))
      let value :=
        pyStripChars [Char.ofNat 39, '"'] ((a.dropWhile (fun c => !(c = '='))).tail)
      { s with aliases := dictSet s.aliases name value }
    else s

/-- `UnixShell.handle_export` (lines 326-335): each `NAME=value` argument
sets an environment entry (split at the first `=`); bare names only
print. -/
def handle_export (args : List (List Char)) (s : ShellState) : ShellState :=
  args.foldl (fun st a =>
    if a.contains '=' then
      let name := a.takeWhile (fun c => !(c = '='))
      let value := (a.dropWhile (fun c => !(c = '='))).tail
      { st with environment := dictSet st.environment name value }
    else st) s

/-- Everything the operating system decides, as oracles: the home
directory, the outcome of `os.chdir` (`ok` returns the new `os.getcwd()`),
the outcome of `open(file, "w")`, the outcome of `subprocess.Popen` for a
given stage index and argv (`ok` returns the handle), the non-blocking
poll, the outcome of `os.kill`, and whether a `KeyboardInterrupt` arrives
during a foreground wait in `fg`. -/
structure OsWorld where
  home : List Char
  chdir : List Char → Except PyExn (List Char)
  openFile : List Char → Option PyExn
  spawn : Nat → List (List Char) → Except PyExn Nat
  poll : Nat → Option Int
  oskill : Int → KillSig
  fgInterrupted : Bool

/-- `cd` (lines 95-103): default path is the home directory; on success
the current directory and `PWD` are updated; `IndexError` and
`FileNotFoundError` are caught and reported (line 101); every other
exception propagates. -/
def builtin_cd (w : OsWorld) (s : ShellState) (args : List (List Char)) :
    Except PyExn ShellState :=
  let path := args.headD w.home
  match w.chdir path with
  | .ok newcwd =>
      .ok { s with current_dir := newcwd,
                   environment := dictSet s.environment (str "PWD") newcwd }
  | .error e =>
      if e = .indexError ∨ e = .fileNotFound then .ok s else .error e

/-- `UnixShell.execute_builtin` (lines 87-141): an empty command is
treated as a handled built-in (lines 89-90); otherwise the first token is
compared against the built-in names; `exit` raises `SystemExit` via
`sys.exit(0)`.  The boolean is the source's return value (`True` = the
command was a built-in). -/
def execute_builtin (w : OsWorld) (s : ShellState)
    (command : List (List Char)) : Except PyExn (Bool × ShellState) :=
  match command with
  | [] => .ok (true, s)
  | cmd :: args =>
    if cmd = str "cd" then
      match builtin_cd w s args with
      | .ok s1 => .ok (true, s1)
      | .error e => .error e
    else if cmd = str "pwd" then .ok (true, s)
    else if cmd = str "jobs" then .ok (true, (show_jobs w.poll s).2)
    else if cmd = str "fg" then
      .ok (true, (foreground_job w.poll w.fgInterrupted args s).2.1)
    else if cmd = str "bg" then .ok (true, s)
    else if cmd = str "kill" then .ok (true, (kill_job w.oskill args s).2)
    else if cmd = str "history" then .ok (true, s)
    else if cmd = str "alias" then .ok (true, handle_alias args s)
    else if cmd = str "export" then .ok (true, handle_export args s)
    else if cmd = str "exit" then .error (.systemExit 0)
    else .ok (false, s)

/-! ### Pipeline execution -/

-- Decidable equality for `Except`, so concrete outcomes settle by `decide`.
deriving instance DecidableEq for Except

/-- Observable process-lifecycle actions taken by the parent shell. -/
inductive ProcEvent where
  | spawned (stage : Nat) (pid : Nat)
  | closedStdout (pid : Nat)
  | waited (pid : Nat)
  | terminated (pid : Nat)
deriving DecidableEq, Repr

/-- Error messages the execution paths print for caught exceptions. -/
inductive ErrMsg where
  | commandNotFound (name : List Char)
  | execError
  | pipelineError
deriving DecidableEq, Repr

/-- The observable outcome of executing one parsed command line:
the propagated exception if any, the resulting shell state, the
process-lifecycle events, the argvs handed to `Popen`, and the error
messages printed for caught exceptions. -/
structure ExecOutcome where
  result : Except PyExn Unit
  state : ShellState
  events : List ProcEvent
  spawnAttempts : List (List (List Char))
  errorsReported : List ErrMsg
deriving DecidableEq, Repr

/-- The spawn loop of `execute_pipeline_chain` (lines 196-218): for stage
`i`, expand aliases, open the redirect file when this is the final stage
(line 203), spawn, record the handle, and close the previous stage's
stdout in the parent (lines 216-218).  Returns the events, the argvs
passed to `Popen`, the handles spawned, and whether the loop ran to
completion (`false` = an exception was raised inside the `try`). -/
def chainLoop (w : OsWorld) (al : List (List Char × List Char)) (n : Nat)
    (rd : Option (List Char)) :
    Nat → List (List (List Char)) → List Nat →
      List ProcEvent × List (List (List Char)) × List Nat × Bool
  | _, [], pids => ([], [], pids, true)
  | i, c :: rest, pids =>
    let argv := expand_aliases al c
    let openFail : Option PyExn :=
      match rd with
      | some f => if i = n - 1 then w.openFile f else none
      | none => none
    match openFail with
    | some _ => ([], [], pids, false)
    | none =>
      match w.spawn i argv with
      | .error _ => ([], [argv], pids, false)
      | .ok pid =>
        let closes : List ProcEvent :=
          match pids.getLast? with
          | some prev => if i > 0 then [.closedStdout prev] else []
          | none => []
        let r := chainLoop w al n rd (i + 1) rest (pids ++ [pid])
        (.spawned i pid :: closes ++ r.1, argv :: r.2.1, r.2.2.1, r.2.2.2)

/-- The label of a pipeline job:
`" | ".join(" ".join(cmd) for cmd in commands)` (line 222) — built from
the ORIGINAL stage argvs, not the alias-expanded ones. -/
def chainLabel (commands : List (List (List Char))) : List Char :=
  joinWith (str " | ") (commands.map (joinWith (str " ")))

/-- `UnixShell.execute_pipeline_chain` (lines 191-240): run the spawn
loop; on success either register the pipeline as a job holding the LAST
stage's handle (background, lines 220-225) or wait for every stage in
spawn order (foreground, lines 227-229).  Any exception inside the `try`
is caught on line 239 and printed as `Pipeline error: ...` — nothing is
terminated or reaped.  `processes[-1]` on an empty list raises an
`IndexError` that the same handler catches. -/
def execute_pipeline_chain (w : OsWorld) (s : ShellState)
    (commands : List (List (List Char))) (background : Bool)
    (rd : Option (List Char)) : ExecOutcome :=
  let r := chainLoop w s.aliases commands.length rd 0 commands []
  if r.2.2.2 then
    if background then
      match r.2.2.1.getLast? with
      | some lastPid =>
          { result := .ok (),
            state := (registerJob s (chainLabel commands) lastPid).1,
            events := r.1, spawnAttempts := r.2.1, errorsReported := [] }
      | none =>
          { result := .ok (), state := s, events := r.1,
            spawnAttempts := r.2.1, errorsReported := [.pipelineError] }
    else
      { result := .ok (), state := s,
        events := r.1 ++ r.2.2.1.map (fun p => .waited p),
        spawnAttempts := r.2.1,
        errorsReported := if r.2.2.1 = [] ∧ rd = none then [.pipelineError] else [] }
  else
    { result := .ok (), state := s, events := r.1, spawnAttempts := r.2.1,
      errorsReported := [.pipelineError] }

/-- The caught-exception tail of the single-command path (lines 183-186):
`FileNotFoundError` prints `{command[0]}: command not found`, every other
`Exception` prints a generic message; `KeyboardInterrupt` and
`SystemExit` are not `Exception` subclasses and propagate. -/
def caughtSingle (s : ShellState) (argvHead : List Char)
    (attempts : List (List (List Char))) (e : PyExn) : ExecOutcome :=
  match e with
  | .keyboardInterrupt =>
      { result := .error .keyboardInterrupt, state := s, events := [],
        spawnAttempts := attempts, errorsReported := [] }
  | .systemExit c =>
      { result := .error (.systemExit c), state := s, events := [],
        spawnAttempts := attempts, errorsReported := [] }
  | .fileNotFound =>
      { result := .ok (), state := s, events := [], spawnAttempts := attempts,
        errorsReported := [.commandNotFound argvHead] }
  | _ =>
      { result := .ok (), state := s, events := [], spawnAttempts := attempts,
        errorsReported := [.execError] }

/-- The single-command branch of `UnixShell.execute_pipeline`
(lines 145-186): expand aliases, try the built-ins FIRST and OUTSIDE the
`try` block (line 149 — an exception from a built-in propagates), then
open the redirect file if any, spawn, and either register a background
job labelled with the EXPANDED argv (lines 166-171) or wait for
completion. -/
def execute_single (w : OsWorld) (s : ShellState) (c : List (List Char))
    (background : Bool) (rd : Option (List Char)) : ExecOutcome :=
  let command := expand_aliases s.aliases c
  match execute_builtin w s command with
  | .error e =>
      { result := .error e, state := s, events := [], spawnAttempts := [],
        errorsReported := [] }
  | .ok (true, s1) =>
      { result := .ok (), state := s1, events := [], spawnAttempts := [],
        errorsReported := [] }
  | .ok (false, _) =>
    match (match rd with | some f => w.openFile f | none => none) with
    | some e => caughtSingle s (command.headD []) [] e
    | none =>
      match w.spawn 0 command with
      | .error e => caughtSingle s (command.headD []) [command] e
      | .ok pid =>
        if background then
          { result := .ok (),
            state := (registerJob s (joinWith (str " ") command) pid).1,
            events := [.spawned 0 pid], spawnAttempts := [command],
            errorsReported := [] }
        else
          { result := .ok (), state := s,
            events := [.spawned 0 pid, .waited pid], spawnAttempts := [command],
            errorsReported := [] }

/-- `UnixShell.execute_pipeline` (lines 143-189): one stage goes through
the single-command path, anything else through the chain. -/
def execute_pipeline (w : OsWorld) (s : ShellState)
    (commands : List (List (List Char))) (background : Bool)
    (rd : Option (List Char)) : ExecOutcome :=
  match commands with
  | [c] => execute_single w s c background rd
  | _ => execute_pipeline_chain w s commands background rd

/-- What one iteration of the main loop does with a read line. -/
inductive LineResult where
  | continued (s : ShellState)
  | exited (code : Int)
  | crashed (e : PyExn)
deriving DecidableEq, Repr

/-- The body of `UnixShell.run` for one read line (lines 354-371): blank
lines are skipped; the line is parsed and executed; the loop's handlers
catch `EOFError` (at `input`, not here) and `KeyboardInterrupt`;
`SystemExit` propagates and ends the process with its code; any other
propagating exception terminates the shell with a traceback
(`crashed`). -/
def run_one_line (w : OsWorld) (s : ShellState) (line : List Char) :
    LineResult :=
  if pyStrip line = [] then .continued s
  else
    let p := parse_command line
    let o := execute_pipeline w s p.commands p.background p.redirect_file
    match o.result with
    | .ok _ => .continued o.state
    | .error .keyboardInterrupt => .continued o.state
    | .error (.systemExit c) => .exited c
    | .error e => .crashed e

/-! ### Concrete worlds used for counterexamples and witnesses -/

/-- A benign world: spawning stage `i` yields handle `10 + i`, `cd` into
`/root` is denied, every polled process has exited with code 0, raw-pid
kills find no process. -/
def cw : OsWorld :=
  { home := str "/home/user"
    chdir := fun p => if p = str "/root" then .error .permissionError else .ok p
    openFile := fun _ => none
    spawn := fun i _ => .ok (10 + i)
    poll := fun _ => some 0
    oskill := fun _ => .noSuchProcess
    fgInterrupted := false }

/-- Like `cw` but stage 1 (and beyond) fails to spawn. -/
def cwFailStage1 : OsWorld :=
  { cw with spawn := fun i _ => if i = 0 then .ok 10 else .error .fileNotFound }

/-- Like `cw` but every spawn fails with `FileNotFoundError`. -/
def cwSpawnErr : OsWorld :=
  { cw with spawn := fun _ _ => .error .fileNotFound }

/-- Like `cw` but `cd` fails with `FileNotFoundError`. -/
def cwCdMissing : OsWorld :=
  { cw with chdir := fun _ => .error .fileNotFound }

/-- Like `cw` but spawning an empty argv raises `IndexError`, as
`subprocess.Popen([])` does (it evaluates `args[0]`). -/
def cwEmptyArgv : OsWorld :=
  { cw with spawn := fun i argv => if argv = [] then .error .indexError else .ok (10 + i) }

/-! ### Helper lemmas about `splitPred` -/

/-- The first segment produced by `splitPred` is the longest prefix free of
separator characters. -/
theorem splitPred_head (p : Char → Bool) (s : List Char) :
    (splitPred p s).headD [] = s.takeWhile (fun c => !p c) := by
  induction s with
  | nil => rfl
  | cons c rest ih =>
    simp only [splitPred, List.takeWhile]
    by_cases h : p c
    · simp [h, List.headD_eq_head?]
    · simp [h, List.headD_eq_head?] at ih ⊢
      simp [ih]

/-- When a separator occurs, the second segment produced by `splitPred` is
the text strictly between the first separator and the next one (or the end
of the list). -/
theorem splitPred_second (p : Char → Bool) (s : List Char) (h : s.any p) :
    ((splitPred p s).drop 1).headD []
      = ((s.dropWhile (fun c => !p c)).tail).takeWhile (fun c => !p c) := by
  induction s with
  | nil => simp at h
  | cons c rest ih =>
    simp only [splitPred, List.dropWhile]
    by_cases hc : p c
    · have h1 := splitPred_head p rest
      simp [hc, List.headD_eq_head?] at h1 ⊢
      simp [h1]
    · have hrest : rest.any p := by
        simp only [List.any_cons, hc, Bool.false_or] at h
        exact h
      simp only [hc, if_false, Bool.not_false, List.takeWhile]
      rw [List.drop_one] at ih ⊢
      simp only [List.headD_eq_head?] at ih ⊢
      simpa [hc] using ih hrest

/-- `List.contains` for characters, rephrased through `List.any`. -/
theorem contains_eq_any (s : List Char) (a : Char) :
    s.contains a = s.any (fun c => c = a) := by
  induction s with
  | nil => rfl
  | cons c rest ih =>
    have hbc : (a == c) = decide (c = a) := by
      by_cases hac : a = c
      · subst hac; simp
      · simp [hac, Ne.symm hac]
    simp only [List.contains_cons, List.any_cons, ← ih, hbc]


/-! ### C4 — redirect parsing -/

/-- C4: the claim states that everything after the first `>` (trimmed)
becomes the redirect target.  On the line `echo a > b > c` the text after
the first `>`, trimmed, is `b > c`, but `parse_command` (which uses
Python's `split(">")` and takes `parts[1]`) produces `b`.  So the claim is
false as stated. -/
theorem C4_counterexample :
    (parse_command (str "echo a > b > c")).redirect_file = some (str "b")
  ∧ pyStrip (((pyStrip (str "echo a > b > c")).dropWhile (fun c => !(c = '>'))).tail)
      = str "b > c"
  ∧ str "b" ≠ str "b > c" := by decide

/-- C4 (amended): for every input line whose processed text (after
stripping whitespace and a trailing `&`) contains `>`, parsing takes
everything before the first `>` as the command part, and the redirect
target is the text strictly between the first `>` and the next `>` (or
the end of the line), trimmed; text after a second `>` is discarded. -/
theorem C4_amended_redirect_split (line : List Char)
    (h : ((stripBackground (pyStrip line)).1).contains '>') :
    (parse_command line).redirect_file
        = some (pyStrip ((((stripBackground (pyStrip line)).1).dropWhile
            (fun c => !(c = '>'))).tail.takeWhile (fun c => !(c = '>'))))
  ∧ (parse_command line).commands
        = (splitPred (· = '|') (pyStrip (((stripBackground (pyStrip line)).1).takeWhile
            (fun c => !(c = '>'))))).map (fun c => pySplit (pyStrip c)) := by
  have hany : ((stripBackground (pyStrip line)).1).any (fun c => c = '>') := by
    rw [← contains_eq_any]; exact h
  constructor
  · simp only [parse_command, splitRedirect, h, if_true]
    rw [splitPred_second _ _ hany]
  · simp only [parse_command, splitRedirect, h, if_true]
    rw [splitPred_head]

/-- C4 witness: the amended theorem applied to the concrete line
`ls > out.txt`. -/
theorem C4_witness :
    (parse_command (str "ls > out.txt")).redirect_file
        = some (pyStrip ((((stripBackground (pyStrip (str "ls > out.txt"))).1).dropWhile
            (fun c => !(c = '>'))).tail.takeWhile (fun c => !(c = '>'))))
  ∧ (parse_command (str "ls > out.txt")).commands
        = (splitPred (· = '|') (pyStrip (((stripBackground (pyStrip (str "ls > out.txt"))).1).takeWhile
            (fun c => !(c = '>'))))).map (fun c => pySplit (pyStrip c)) :=
  C4_amended_redirect_split (str "ls > out.txt") (by decide)

/-! ### C6 — alias expansion -/

/-- C6: if the first token of a stage is an alias key, expansion replaces
it by the alias value's whitespace-split tokens followed by the remaining
original tokens; the result is exactly that concatenation whatever the
alias table contains, so the replacement text is not re-expanded (third
conjunct: a self-referencing alias is expanded only once); and with the
default table, `ll /tmp` expands to `[ls, -la, /tmp]`. -/
theorem C6_alias_expansion (aliases : List (List Char × List Char))
    (hd v : List Char) (tl : List (List Char))
    (h : aliases.lookup hd = some v) :
    expand_aliases aliases (hd :: tl) = pySplit v ++ tl
  ∧ expand_aliases default_aliases [str "ll", str "/tmp"]
      = [str "ls", str "-la", str "/tmp"]
  ∧ expand_aliases [(str "x", str "x -a")] [str "x"] = [str "x", str "-a"] :=
  ⟨by simp [expand_aliases, h], by decide, by decide⟩

/-- C6 witness: the theorem applied to the default alias table and the
stage `ll /tmp`. -/
theorem C6_witness :
    expand_aliases default_aliases (str "ll" :: [str "/tmp"])
        = pySplit (str "ls -la") ++ [str "/tmp"]
  ∧ expand_aliases default_aliases [str "ll", str "/tmp"]
      = [str "ls", str "-la", str "/tmp"]
  ∧ expand_aliases [(str "x", str "x -a")] [str "x"] = [str "x", str "-a"] :=
  C6_alias_expansion default_aliases (str "ll") (str "ls -la") [str "/tmp"] (by decide)

/-! ### Job-table lemmas (C3, C7) -/

/-- The ids a trace of operations assigns are the consecutive integers
from the starting counter, one per registration. -/
theorem assignedIds_eq_idsFrom (ops : List JobOp) : ∀ s : ShellState,
    assignedIds s ops = idsFrom s.job_counter (countRegisters ops) := by
  induction ops with
  | nil => intro s; rfl
  | cons op ops ih =>
    intro s
    cases op with
    | register c p => simp [assignedIds, countRegisters, idsFrom, ih, applyOp, registerJob]
    | remove j => simp [assignedIds, countRegisters, ih, applyOp, removeJob]

/-- Consecutive integers are strictly increasing. -/
theorem idsFrom_chain (n : Nat) : ∀ c : Int, List.Chain' (· < ·) (idsFrom c n) := by
  induction n with
  | zero => intro c; exact List.chain'_nil
  | succ n ih =>
    intro c
    rw [idsFrom, List.chain'_cons']
    refine ⟨?_, ih (c + 1)⟩
    intro b hb
    cases n with
    | zero => simp [idsFrom] at hb
    | succ m =>
      simp [idsFrom] at hb
      omega

/-- Consecutive integers contain no duplicates. -/
theorem idsFrom_nodup (n : Nat) (c : Int) : (idsFrom c n).Nodup :=
  (List.chain'_iff_pairwise.mp (idsFrom_chain n c)).imp ne_of_lt

/-- The freshly initialised table is well-formed. -/
theorem tableInv_init : tableInv initShellState := by
  constructor <;> simp [initShellState, jobsKeys]

/-- Registering and removing preserve table well-formedness. -/
theorem tableInv_applyOp (s : ShellState) (op : JobOp) (h : tableInv s) :
    tableInv (applyOp s op) := by
  obtain ⟨h1, h2⟩ := h
  cases op with
  | register c p =>
    constructor
    · simp only [applyOp, registerJob, jobsKeys, List.map_append] at h1 h2 ⊢
      rw [List.pairwise_append]
      refine ⟨h1, by simp, ?_⟩
      intro a ha b hb
      simp only [List.map_cons, List.map_nil, List.mem_singleton] at hb
      subst hb
      exact h2 a ha
    · intro k hk
      simp only [applyOp, registerJob, jobsKeys, List.map_append] at hk h2 ⊢
      rcases List.mem_append.mp hk with hk | hk
      · have := h2 k hk; omega
      · simp only [List.map_cons, List.map_nil, List.mem_singleton] at hk
        subst hk; omega
  | remove j =>
    have hsub : List.Sublist (jobsKeys (applyOp s (JobOp.remove j))) (jobsKeys s) := by
      simp only [applyOp, removeJob, jobsKeys]
      exact (List.filter_sublist _).map _
    constructor
    · exact h1.sublist hsub
    · intro k hk
      exact h2 k (hsub.subset hk)

/-- Any table reachable by register/remove operations is well-formed. -/
theorem tableInv_runOps (ops : List JobOp) : ∀ s, tableInv s → tableInv (runOps s ops) := by
  induction ops with
  | nil => exact fun s h => h
  | cons op ops ih => exact fun s h => ih _ (tableInv_applyOp s op h)

/-- Folding deletions over a list of ids keeps exactly the entries whose
id is not in the list; no other state field changes. -/
theorem foldl_removeJob (ids : List Int) : ∀ s : ShellState,
    ids.foldl removeJob s
      = { s with jobs := s.jobs.filter (fun e => decide (e.1 ∉ ids)) } := by
  induction ids with
  | nil => intro s; simp
  | cons a as ih =>
    intro s
    rw [List.foldl_cons, ih]
    have hjobs : ((removeJob s a).jobs.filter (fun e => decide (e.1 ∉ as)))
        = s.jobs.filter (fun e => decide (e.1 ∉ a :: as)) := by
      simp only [removeJob, List.filter_filter]
      apply List.filter_congr
      intro e _
      simp only [List.mem_cons, not_or, decide_not]
      rw [Bool.and_comm]
      simp
    simp only [removeJob] at hjobs ⊢
    rw [hjobs]

/-- With duplicate-free ids, an entry's id appears among the finished ids
collected by `show_jobs` exactly when that entry's own process has
finished. -/
theorem completed_mem_iff (poll : Nat → Option Int) (s : ShellState)
    (hnd : (s.jobs.map (fun e => e.1)).Nodup) (e : Int × Job) (he : e ∈ s.jobs) :
    (e.1 ∈ (s.jobs.filter (fun x => !job_is_running poll x.2)).map (fun x => x.1))
      ↔ job_is_running poll e.2 = false := by
  constructor
  · intro h
    obtain ⟨e2, he2, heq⟩ := List.mem_map.mp h
    obtain ⟨he2m, he2r⟩ := List.mem_filter.mp he2
    have : e2 = e := List.inj_on_of_nodup_map hnd he2m he heq
    subst this
    simpa using he2r
  · intro h
    exact List.mem_map.mpr ⟨e, List.mem_filter.mpr ⟨he, by simp [h]⟩, rfl⟩

/-- On a well-formed table, `show_jobs` prints every entry in table order
and its cleanup pass keeps exactly the still-running entries. -/
theorem show_jobs_spec (poll : Nat → Option Int) (s : ShellState)
    (hinv : tableInv s) :
    (show_jobs poll s).1
        = s.jobs.map (fun e => ⟨e.1, job_get_status poll e.2, e.2.command⟩)
  ∧ (show_jobs poll s).2
        = { s with jobs := s.jobs.filter (fun e => job_is_running poll e.2) } := by
  by_cases hempty : s.jobs = []
  · have hsj : show_jobs poll s = ([], s) := by simp [show_jobs, hempty]
    constructor
    · simp [hsj, hempty]
    · rw [hsj, hempty]
      simp only [List.filter_nil]
      rw [← hempty]
  · constructor
    · simp [show_jobs, hempty]
    · simp only [show_jobs, hempty, if_neg, ite_false]
      rw [foldl_removeJob]
      have hflt : s.jobs.filter (fun e => decide (e.1 ∉
            ((s.jobs.filter (fun x => !job_is_running poll x.2)).map (fun x => x.1))))
          = s.jobs.filter (fun e => job_is_running poll e.2) := by
        apply List.filter_congr
        intro e he
        have hnd : (s.jobs.map (fun x => x.1)).Nodup := hinv.1.imp ne_of_lt
        have hiff := completed_mem_iff poll s hnd e he
        by_cases hr : job_is_running poll e.2 = true
        · have hne : e.1 ∉ (s.jobs.filter
              (fun x => !job_is_running poll x.2)).map (fun x => x.1) := by
            intro hmem
            have hfalse := hiff.mp hmem
            rw [hr] at hfalse
            cases hfalse
          simp [hne, hr]
        · have hr2 : job_is_running poll e.2 = false := by
            simpa using hr
          have hmem := hiff.mpr hr2
          simp [hmem, hr2]
      rw [hflt]

/-! ### Pipeline-construction lemmas (C1, C2, C5, C9) -/

/-- The spawn loop of `execute_pipeline_chain` performs no terminate and
no wait actions, whatever happens. -/
theorem chainLoop_no_cleanup (w : OsWorld) (al : List (List Char × List Char))
    (n : Nat) (rd : Option (List Char)) :
    ∀ (cs : List (List (List Char))) (i : Nat) (pids : List Nat) (p : Nat),
      ProcEvent.terminated p ∉ (chainLoop w al n rd i cs pids).1
    ∧ ProcEvent.waited p ∉ (chainLoop w al n rd i cs pids).1 := by
  intro cs
  induction cs with
  | nil => intro i pids p; simp [chainLoop]
  | cons c rest ih =>
    intro i pids p
    simp only [chainLoop]
    cases hof : (match rd with
      | some f => if i = n - 1 then w.openFile f else none
      | none => none) with
    | some e => simp
    | none =>
      cases hsp : w.spawn i (expand_aliases al c) with
      | error e => simp
      | ok pid =>
        have := ih (i + 1) (pids ++ [pid]) p
        cases hlast : pids.getLast? with
        | none => simp_all
        | some prev =>
          by_cases hi : i > 0 <;> simp_all

/-- When the spawn loop fails, the chain reports a pipeline error, leaves
the state unchanged and propagates nothing. -/
theorem chain_fail_spec (w : OsWorld) (s : ShellState)
    (commands : List (List (List Char))) (background : Bool)
    (rd : Option (List Char))
    (h : (chainLoop w s.aliases commands.length rd 0 commands []).2.2.2 = false) :
    execute_pipeline_chain w s commands background rd
      = { result := .ok (), state := s,
          events := (chainLoop w s.aliases commands.length rd 0 commands []).1,
          spawnAttempts := (chainLoop w s.aliases commands.length rd 0 commands []).2.1,
          errorsReported := [.pipelineError] } := by
  simp only [execute_pipeline_chain, h]
  simp

/-- When the spawn loop completes, every stage's spawn succeeded. -/
theorem chainLoop_ok_spawn (w : OsWorld) (al : List (List Char × List Char))
    (n : Nat) (rd : Option (List Char)) :
    ∀ (cs : List (List (List Char))) (i : Nat) (pids : List Nat),
      (chainLoop w al n rd i cs pids).2.2.2 = true →
      ∀ (k : Nat) (c : List (List Char)), cs[k]? = some c →
        ∃ pid, w.spawn (i + k) (expand_aliases al c) = .ok pid := by
  intro cs
  induction cs with
  | nil => intro i pids hok k c hc; simp at hc
  | cons c0 rest ih =>
    intro i pids hok k c hc
    simp only [chainLoop] at hok
    cases hof : (match rd with
      | some f => if i = n - 1 then w.openFile f else none
      | none => none) with
    | some e => rw [hof] at hok; simp at hok
    | none =>
      rw [hof] at hok
      cases hsp : w.spawn i (expand_aliases al c0) with
      | error e => rw [hsp] at hok; simp at hok
      | ok pid =>
        rw [hsp] at hok
        simp only at hok
        cases k with
        | zero =>
          simp only [List.getElem?_cons_zero, Option.some_inj] at hc
          subst hc
          exact ⟨pid, by simpa using hsp⟩
        | succ m =>
          simp only [List.getElem?_cons_succ] at hc
          obtain ⟨pid2, hp2⟩ := ih (i + 1) (pids ++ [pid]) (by simpa using hok) m c hc
          exact ⟨pid2, by rw [← hp2]; congr 1; omega⟩

/-- A spawn failure in the single-command path is caught by the
`try`/`except` of lines 183-186 (for every exception class except
`KeyboardInterrupt` and `SystemExit`): an error message is printed, the
loop-visible result is success and the state is unchanged. -/
theorem single_spawn_error_caught (w : OsWorld) (s : ShellState)
    (c : List (List Char)) (bg : Bool) (e : PyExn)
    (hb : execute_builtin w s (expand_aliases s.aliases c) = .ok (false, s))
    (hsp : w.spawn 0 (expand_aliases s.aliases c) = .error e)
    (hki : e ≠ .keyboardInterrupt) (hse : ∀ n, e ≠ .systemExit n) :
    (execute_pipeline w s [c] bg none).result = .ok ()
  ∧ (execute_pipeline w s [c] bg none).state = s
  ∧ (execute_pipeline w s [c] bg none).errorsReported ≠ [] := by
  simp only [execute_pipeline, execute_single, hb, hsp]
  cases e with
  | keyboardInterrupt => exact absurd rfl hki
  | systemExit n => exact absurd rfl (hse n)
  | fileNotFound => simp [caughtSingle]
  | notADirectory => simp [caughtSingle]
  | permissionError => simp [caughtSingle]
  | indexError => simp [caughtSingle]
  | valueError => simp [caughtSingle]
  | processLookup => simp [caughtSingle]
  | eofError => simp [caughtSingle]
  | otherError => simp [caughtSingle]

/-- The multi-stage path catches every exception raised inside its `try`
(line 239), so it never propagates one. -/
theorem chain_never_raises (w : OsWorld) (s : ShellState) (c0 c1 : List (List Char))
    (cs : List (List (List Char))) (bg : Bool) (rd : Option (List Char)) :
    (execute_pipeline w s (c0 :: c1 :: cs) bg rd).result = .ok () := by
  simp only [execute_pipeline, execute_pipeline_chain]
  cases hok : (chainLoop w s.aliases (c0 :: c1 :: cs).length rd 0 (c0 :: c1 :: cs) []).2.2.2
  · simp [hok]
  · simp only [hok, if_true]
    cases bg
    · simp
    · simp only [if_true]
      cases hlast :
        (chainLoop w s.aliases (c0 :: c1 :: cs).length rd 0 (c0 :: c1 :: cs) []).2.2.1.getLast?
      · simp [hlast]
      · simp [hlast]

/-- `cd` catches a `FileNotFoundError` from `os.chdir` (line 101). -/
theorem cd_file_not_found_caught (w : OsWorld) (s : ShellState)
    (args : List (List Char))
    (h : w.chdir (args.headD w.home) = .error .fileNotFound) :
    execute_builtin w s (str "cd" :: args) = .ok (true, s) := by
  have h2 : w.chdir (args.head?.getD w.home) = .error .fileNotFound := by
    rw [← List.headD_eq_head?]
    exact h
  simp [execute_builtin, builtin_cd, h2]

/-- `cd` does NOT catch a `PermissionError` from `os.chdir`: the
exception escapes `execute_builtin`. -/
theorem cd_permission_error_propagates (w : OsWorld) (s : ShellState)
    (args : List (List Char))
    (h : w.chdir (args.headD w.home) = .error .permissionError) :
    execute_builtin w s (str "cd" :: args) = .error .permissionError := by
  have h2 : w.chdir (args.head?.getD w.home) = .error .permissionError := by
    rw [← List.headD_eq_head?]
    exact h
  simp [execute_builtin, builtin_cd, h2]

/-- The main loop's handlers (lines 366-371) catch only `EOFError` and
`KeyboardInterrupt`; a propagating `PermissionError` terminates the
shell. -/
theorem run_crash_on_permission_error (w : OsWorld) (s : ShellState) (line : List Char)
    (hline : pyStrip line ≠ [])
    (hres : (execute_pipeline w s (parse_command line).commands
        (parse_command line).background (parse_command line).redirect_file).result
          = .error .permissionError) :
    run_one_line w s line = .crashed .permissionError := by
  simp only [run_one_line, if_neg hline]
  rw [hres]

/-- A single empty stage is intercepted by `execute_builtin`'s
empty-command check: nothing is spawned, nothing is reported. -/
theorem empty_single_stage_noop (w : OsWorld) (s : ShellState) (bg : Bool)
    (rd : Option (List Char)) :
    execute_pipeline w s [[]] bg rd
      = { result := .ok (), state := s, events := [], spawnAttempts := [],
          errorsReported := [] } := by
  simp [execute_pipeline, execute_single, expand_aliases, execute_builtin]

/-- In a multi-stage pipeline an empty stage reaches `Popen` with an
empty argv; since that raises, the chain reports a pipeline error. -/
theorem empty_stage_chain_error (w : OsWorld) (s : ShellState) (c0 c1 : List (List Char))
    (cs : List (List (List Char))) (bg : Bool) (rd : Option (List Char)) (k : Nat)
    (hc : (c0 :: c1 :: cs)[k]? = some [])
    (hsp : w.spawn k [] = .error .indexError) :
    (execute_pipeline w s (c0 :: c1 :: cs) bg rd).errorsReported = [.pipelineError]
  ∧ (execute_pipeline w s (c0 :: c1 :: cs) bg rd).state = s := by
  cases hok : (chainLoop w s.aliases (c0 :: c1 :: cs).length rd 0 (c0 :: c1 :: cs) []).2.2.2 with
  | true =>
    exfalso
    obtain ⟨pid, hpid⟩ := chainLoop_ok_spawn w s.aliases (c0 :: c1 :: cs).length rd
      (c0 :: c1 :: cs) 0 [] hok k [] hc
    rw [Nat.zero_add] at hpid
    simp only [expand_aliases] at hpid
    rw [hsp] at hpid
    cases hpid
  | false =>
    have hchain := chain_fail_spec w s (c0 :: c1 :: cs) bg rd hok
    constructor
    · simp only [execute_pipeline]
      rw [hchain]
    · simp only [execute_pipeline]
      rw [hchain]

/-! ### C1 — partial pipeline failure -/

/-- C1: the claim says that when spawning a non-final stage fails, every
already-spawned stage is terminated and waited-on before the error is
surfaced.  In the world `cwFailStage1` stage 0 spawns as process 10 and
stage 1 fails; the chain prints `Pipeline error` but its event log shows
process 10 is neither terminated nor waited — the claim is false. -/
theorem C1_counterexample :
    (execute_pipeline_chain cwFailStage1 initShellState
        [[str "a"], [str "b"]] false none).events = [.spawned 0 10]
  ∧ (execute_pipeline_chain cwFailStage1 initShellState
        [[str "a"], [str "b"]] false none).errorsReported = [.pipelineError]
  ∧ ProcEvent.terminated 10 ∉ (execute_pipeline_chain cwFailStage1 initShellState
        [[str "a"], [str "b"]] false none).events
  ∧ ProcEvent.waited 10 ∉ (execute_pipeline_chain cwFailStage1 initShellState
        [[str "a"], [str "b"]] false none).events := by
  decide

/-- C1 (amended): if spawning any stage of a multi-stage pipeline fails,
the exception is caught and reported as a pipeline error and the shell
state is unchanged, but the already-spawned stages are neither terminated
nor waited on — their processes are left running. -/
theorem C1_amended_no_cleanup_on_spawn_failure (w : OsWorld) (s : ShellState)
    (commands : List (List (List Char))) (background : Bool) (rd : Option (List Char))
    (h : (chainLoop w s.aliases commands.length rd 0 commands []).2.2.2 = false) :
    (execute_pipeline_chain w s commands background rd).errorsReported = [.pipelineError]
  ∧ (execute_pipeline_chain w s commands background rd).result = .ok ()
  ∧ (execute_pipeline_chain w s commands background rd).state = s
  ∧ ∀ p : Nat,
      ProcEvent.terminated p ∉ (execute_pipeline_chain w s commands background rd).events
    ∧ ProcEvent.waited p ∉ (execute_pipeline_chain w s commands background rd).events := by
  rw [chain_fail_spec w s commands background rd h]
  refine ⟨rfl, rfl, rfl, ?_⟩
  exact fun p => chainLoop_no_cleanup w s.aliases commands.length rd commands 0 [] p

/-- C1 witness: the amended theorem at the two-stage pipeline whose
second stage fails to spawn. -/
theorem C1_witness :
    (execute_pipeline_chain cwFailStage1 initShellState
        [[str "a"], [str "b"]] false none).errorsReported = [.pipelineError]
  ∧ (execute_pipeline_chain cwFailStage1 initShellState
        [[str "a"], [str "b"]] false none).result = .ok ()
  ∧ (execute_pipeline_chain cwFailStage1 initShellState
        [[str "a"], [str "b"]] false none).state = initShellState
  ∧ ∀ p : Nat,
      ProcEvent.terminated p ∉ (execute_pipeline_chain cwFailStage1 initShellState
          [[str "a"], [str "b"]] false none).events
    ∧ ProcEvent.waited p ∉ (execute_pipeline_chain cwFailStage1 initShellState
          [[str "a"], [str "b"]] false none).events :=
  C1_amended_no_cleanup_on_spawn_failure cwFailStage1 initShellState
    [[str "a"], [str "b"]] false none (by decide)

/-! ### C2 — error catching at the dispatch boundary -/

/-- C2: the claim says every error arising from executing a command line
— including errors raised inside built-ins such as `cd` — is caught and
the loop continues.  But `cd` catches only `IndexError` and
`FileNotFoundError`; in the world `cw`, where `os.chdir("/root")` raises
`PermissionError`, the line `cd /root` makes the exception propagate past
the loop's handlers and the shell process terminates — the claim is
false. -/
theorem C2_counterexample :
    run_one_line cw initShellState (str "cd /root") = .crashed .permissionError
  ∧ run_one_line cw initShellState (str "cd /root") ≠ .continued initShellState
  ∧ run_one_line cw initShellState (str "cd /root") ≠ .exited 0 := by decide

/-- C2 (amended): errors raised while spawning an external command are
caught at the dispatch boundary with an error message and the loop
continues (first conjunct), multi-stage pipelines never propagate an
exception (second), and `cd` catches `FileNotFoundError` (third); but a
`PermissionError` raised inside `cd` escapes `execute_builtin` (fourth)
and terminates the shell (fifth) — built-in errors outside the
specifically-handled exception classes are not caught. -/
theorem C2_amended_error_catching :
    (∀ (w : OsWorld) (s : ShellState) (c : List (List Char)) (bg : Bool) (e : PyExn),
        execute_builtin w s (expand_aliases s.aliases c) = .ok (false, s) →
        w.spawn 0 (expand_aliases s.aliases c) = .error e →
        e ≠ .keyboardInterrupt → (∀ n, e ≠ .systemExit n) →
        (execute_pipeline w s [c] bg none).result = .ok ()
          ∧ (execute_pipeline w s [c] bg none).state = s
          ∧ (execute_pipeline w s [c] bg none).errorsReported ≠ [])
  ∧ (∀ (w : OsWorld) (s : ShellState) (c0 c1 : List (List Char))
        (cs : List (List (List Char))) (bg : Bool) (rd : Option (List Char)),
        (execute_pipeline w s (c0 :: c1 :: cs) bg rd).result = .ok ())
  ∧ (∀ (w : OsWorld) (s : ShellState) (args : List (List Char)),
        w.chdir (args.headD w.home) = .error .fileNotFound →
        execute_builtin w s (str "cd" :: args) = .ok (true, s))
  ∧ (∀ (w : OsWorld) (s : ShellState) (args : List (List Char)),
        w.chdir (args.headD w.home) = .error .permissionError →
        execute_builtin w s (str "cd" :: args) = .error .permissionError)
  ∧ (∀ (w : OsWorld) (s : ShellState) (line : List Char),
        pyStrip line ≠ [] →
        (execute_pipeline w s (parse_command line).commands (parse_command line).background
            (parse_command line).redirect_file).result = .error .permissionError →
        run_one_line w s line = .crashed .permissionError) :=
  ⟨single_spawn_error_caught, chain_never_raises, cd_file_not_found_caught,
   cd_permission_error_propagates, run_crash_on_permission_error⟩

/-- C2 witness: each conjunct of the amended theorem at a concrete
input. -/
theorem C2_witness :
    ((execute_pipeline cwSpawnErr initShellState [[str "true"]] false none).result = .ok ()
      ∧ (execute_pipeline cwSpawnErr initShellState [[str "true"]] false none).state
          = initShellState
      ∧ (execute_pipeline cwSpawnErr initShellState [[str "true"]] false none).errorsReported ≠ [])
  ∧ (execute_pipeline cw initShellState [[str "a"], [str "b"]] false none).result = .ok ()
  ∧ execute_builtin cwCdMissing initShellState (str "cd" :: [str "/nope"])
      = .ok (true, initShellState)
  ∧ execute_builtin cw initShellState (str "cd" :: [str "/root"]) = .error .permissionError
  ∧ run_one_line cw initShellState (str "cd /root") = .crashed .permissionError :=
  ⟨C2_amended_error_catching.1 cwSpawnErr initShellState [str "true"] false .fileNotFound
      (by decide) (by decide) (by decide) (fun n h => PyExn.noConfusion h),
   C2_amended_error_catching.2.1 cw initShellState [str "a"] [str "b"] [] false none,
   C2_amended_error_catching.2.2.1 cwCdMissing initShellState [str "/nope"] (by decide),
   C2_amended_error_catching.2.2.2.1 cw initShellState [str "/root"] (by decide),
   C2_amended_error_catching.2.2.2.2 cw initShellState (str "cd /root") (by decide) (by decide)⟩

/-! ### C3 — job-id monotonicity -/

/-- C3: over every sequence of register and remove operations from the
initial state, the assigned job ids are exactly the consecutive integers
starting at 1 (one per registration), hence strictly increasing, and no
id is ever assigned twice — removals never make an id reusable. -/
theorem C3_job_ids_monotonic (ops : List JobOp) :
    assignedIds initShellState ops = idsFrom 1 (countRegisters ops)
  ∧ List.Chain' (· < ·) (assignedIds initShellState ops)
  ∧ (assignedIds initShellState ops).Nodup := by
  have h := assignedIds_eq_idsFrom ops initShellState
  have h1 : initShellState.job_counter = 1 := rfl
  rw [h1] at h
  exact ⟨h, h ▸ idsFrom_chain _ _, h ▸ idsFrom_nodup _ _⟩

/-! ### C5 — zero-token stages -/

/-- C5: the claim says a zero-token stage is always propagated as a
spawn-time command-not-found style error and never silently dropped.  But
the line `&` parses to a single empty stage, which `execute_builtin`'s
empty-command check intercepts: no spawn is attempted, no error is
reported, and the state is unchanged — silently dropped, so the claim is
false. -/
theorem C5_counterexample :
    parse_command (str "&") = ⟨[[]], true, none⟩
  ∧ execute_pipeline cw initShellState [[]] true none
      = { result := .ok (), state := initShellState, events := [], spawnAttempts := [],
          errorsReported := [] } := by decide

/-- C5 (amended): a single-stage command with zero tokens (e.g. a line
that is only `&`) is intercepted by `execute_builtin`'s empty-command
check and silently dropped with no spawn and no error; only in a
multi-stage pipeline does a zero-token stage reach `Popen` with an empty
argv, whose raised `IndexError` is reported as a generic pipeline error
(not a command-not-found message). -/
theorem C5_amended_empty_stage :
    (∀ (w : OsWorld) (s : ShellState) (bg : Bool) (rd : Option (List Char)),
        execute_pipeline w s [[]] bg rd
          = { result := .ok (), state := s, events := [], spawnAttempts := [],
              errorsReported := [] })
  ∧ (∀ (w : OsWorld) (s : ShellState) (c0 c1 : List (List Char))
        (cs : List (List (List Char))) (bg : Bool) (rd : Option (List Char)) (k : Nat),
        (c0 :: c1 :: cs)[k]? = some [] →
        w.spawn k [] = .error .indexError →
        (execute_pipeline w s (c0 :: c1 :: cs) bg rd).errorsReported = [.pipelineError]
          ∧ (execute_pipeline w s (c0 :: c1 :: cs) bg rd).state = s) :=
  ⟨empty_single_stage_noop, empty_stage_chain_error⟩

/-- C5 witness: both conjuncts of the amended theorem at concrete
inputs (`&` and `a | | b`). -/
theorem C5_witness :
    execute_pipeline cw initShellState [[]] true none
      = { result := .ok (), state := initShellState, events := [], spawnAttempts := [],
          errorsReported := [] }
  ∧ ((execute_pipeline cwEmptyArgv initShellState
          [[str "a"], [], [str "b"]] false none).errorsReported = [.pipelineError]
      ∧ (execute_pipeline cwEmptyArgv initShellState
          [[str "a"], [], [str "b"]] false none).state = initShellState) :=
  ⟨C5_amended_empty_stage.1 cw initShellState true none,
   C5_amended_empty_stage.2 cwEmptyArgv initShellState [str "a"] [] [[str "b"]] false none 1
      (by decide) (by decide)⟩

/-! ### C7 — the jobs built-in -/

/-- C7: on every table reachable by register/remove operations, the
`jobs` built-in prints every entry (id, status, label) in ascending id
order, and then removes exactly the entries whose status is non-running,
leaving every still-running entry (and every other state field)
unchanged. -/
theorem C7_jobs_display_and_reap (ops : List JobOp) (poll : Nat → Option Int) :
    List.Chain' (· < ·)
        (((show_jobs poll (runOps initShellState ops)).1).map (fun l => l.jid))
  ∧ (show_jobs poll (runOps initShellState ops)).1
      = (runOps initShellState ops).jobs.map
          (fun e => ⟨e.1, job_get_status poll e.2, e.2.command⟩)
  ∧ (show_jobs poll (runOps initShellState ops)).2
      = { runOps initShellState ops with
          jobs := (runOps initShellState ops).jobs.filter
            (fun e => job_is_running poll e.2) } := by
  have hinv : tableInv (runOps initShellState ops) :=
    tableInv_runOps ops initShellState tableInv_init
  obtain ⟨hout, hstate⟩ := show_jobs_spec poll (runOps initShellState ops) hinv
  refine ⟨?_, hout, hstate⟩
  rw [hout, List.map_map]
  have hcomp : ((fun l => JobsLine.jid l)
        ∘ fun e : Int × Job => (⟨e.1, job_get_status poll e.2, e.2.command⟩ : JobsLine))
      = fun e : Int × Job => e.1 := rfl
  rw [hcomp]
  exact List.chain'_iff_pairwise.mpr hinv.1

/-! ### C8 — kill failure paths -/

/-- C8: every failure path of the `kill` built-in — no argument,
non-numeric argument, or a number that is neither a job id nor a
signalable process id — prints a message and leaves the job table exactly
as it was. -/
theorem C8_kill_failure_paths (oskill : Int → KillSig) (args : List (List Char))
    (s : ShellState)
    (h : args = []
       ∨ (∃ a rest, args = a :: rest ∧ pyInt a = none)
       ∨ (∃ a rest j, args = a :: rest ∧ pyInt a = some j
            ∧ s.jobs.lookup j = none ∧ oskill j ≠ .ok)) :
    (kill_job oskill args s).2 = s ∧ (kill_job oskill args s).1 ≠ [] := by
  rcases h with h | ⟨a, rest, ha, hp⟩ | ⟨a, rest, j, ha, hp, hl, hk⟩
  · subst h; simp [kill_job]
  · subst ha; simp [kill_job, hp]
  · subst ha
    simp only [kill_job, hp, hl]
    cases hos : oskill j with
    | ok => exact absurd hos hk
    | noSuchProcess => simp
    | permissionDenied => simp

/-- C8 witness: `kill 999` on a table holding job 1, where process 999
does not exist: the table is unchanged and a message is printed. -/
theorem C8_witness :
    (kill_job (fun _ => .noSuchProcess) [str "999"]
        (registerJob initShellState (str "sleep 100") 4242).1).2
      = (registerJob initShellState (str "sleep 100") 4242).1
  ∧ (kill_job (fun _ => .noSuchProcess) [str "999"]
        (registerJob initShellState (str "sleep 100") 4242).1).1 ≠ [] :=
  C8_kill_failure_paths _ _ _
    (Or.inr (Or.inr ⟨str "999", [], 999, rfl, by decide, by decide, by decide⟩))

/-! ### C9 — what a pipeline job stores -/

/-- C9: the claim says a background pipeline job of n stages holds n
process handles in stage order.  Running the two-stage pipeline `a | b`
in the background spawns processes 10 and 11, but the registered job
record holds the single handle 11 (the final stage's): one handle, not
two, and stage 0's handle 10 is absent — the claim is false. -/
theorem C9_counterexample :
    (execute_pipeline_chain cw initShellState [[str "a"], [str "b"]] true none).state.jobs
        = [(1, ⟨1, str "a | b", 11⟩)]
  ∧ jobHandles ⟨1, str "a | b", 11⟩ = [11]
  ∧ (jobHandles ⟨1, str "a | b", 11⟩).length ≠ [[str "a"], [str "b"]].length
  ∧ (10 : Nat) ∉ jobHandles ⟨1, str "a | b", 11⟩ := by decide

/-- C9 (amended): every Job record created for a background pipeline
holds exactly one process handle — that of the final stage — together
with the `" | "`-joined label. -/
theorem C9_amended_last_handle_only (w : OsWorld) (s : ShellState)
    (commands : List (List (List Char))) (rd : Option (List Char)) (lastPid : Nat)
    (hok : (chainLoop w s.aliases commands.length rd 0 commands []).2.2.2 = true)
    (hlast : (chainLoop w s.aliases commands.length rd 0 commands []).2.2.1.getLast?
        = some lastPid) :
    (execute_pipeline_chain w s commands true rd).state.jobs
        = s.jobs ++ [(s.job_counter, ⟨s.job_counter, chainLabel commands, lastPid⟩)]
  ∧ jobHandles ⟨s.job_counter, chainLabel commands, lastPid⟩ = [lastPid] := by
  simp only [execute_pipeline_chain, hok, hlast]
  simp [registerJob, jobHandles]

/-- C9 witness: the amended theorem at the background pipeline `a | b`
in the world `cw` (stage handles 10 and 11). -/
theorem C9_witness :
    (execute_pipeline_chain cw initShellState [[str "a"], [str "b"]] true none).state.jobs
        = initShellState.jobs
          ++ [(initShellState.job_counter,
               ⟨initShellState.job_counter, chainLabel [[str "a"], [str "b"]], 11⟩)]
  ∧ jobHandles ⟨initShellState.job_counter, chainLabel [[str "a"], [str "b"]], 11⟩ = [11] :=
  C9_amended_last_handle_only cw initShellState [[str "a"], [str "b"]] none 11
    (by decide) (by decide)

/-! ### C10 — fg on a finished job -/

/-- C10: when `fg` resolves to a job whose status is already non-running,
it performs no wait, prints nothing, and leaves the whole state — in
particular that job's table entry — unchanged. -/
theorem C10_fg_nonrunning_noop (poll : Nat → Option Int) (interrupted : Bool)
    (args : List (List Char)) (s : ShellState) (jid : Int) (job : Job)
    (h1 : resolve_fg_target args s = .ok jid)
    (h2 : s.jobs.lookup jid = some job)
    (h3 : job_is_running poll job = false) :
    foreground_job poll interrupted args s = ([], s, none)
  ∧ ((foreground_job poll interrupted args s).2.1).jobs.lookup jid = some job := by
  have hmain : foreground_job poll interrupted args s = ([], s, none) := by
    simp [foreground_job, h1, h2, h3]
  exact ⟨hmain, by rw [hmain]; exact h2⟩

/-- C10 witness: `fg 1` on a table whose job 1 has already exited. -/
theorem C10_witness :
    foreground_job (fun _ => some 0) false [str "1"]
        (registerJob initShellState (str "sleep 1") 7).1
      = ([], (registerJob initShellState (str "sleep 1") 7).1, none)
  ∧ (((foreground_job (fun _ => some 0) false [str "1"]
        (registerJob initShellState (str "sleep 1") 7).1).2.1).jobs.lookup 1)
      = some ⟨1, str "sleep 1", 7⟩ :=
  C10_fg_nonrunning_noop _ _ _ _ 1 ⟨1, str "sleep 1", 7⟩ (by decide) (by decide) (by decide)
